import Mathlib

/-!
Verification of the ISIC challenge scoring core (`isic_challenge_scoring`).

The Python source is shallowly embedded:
* boolean NumPy arrays become `List Bool`;
* `uint8` pixel arrays become `List ℕ` with explicit `% 256` where the
  in-place arithmetic can wrap;
* Python `float` arithmetic on exactly-representable values becomes `ℚ`;
* a raised exception becomes the `Except` error case, with `Err.score`
  standing for `ScoreException` and `Err.zeroDiv` for `ZeroDivisionError`;
* `None` metric values become `Option.none`.
-/

namespace ISIC

/-- The failure modes of the embedded code: `score msg` is a raised
`ScoreException(msg)`, `zeroDiv` is a raised `ZeroDivisionError`. -/
inductive Err where
  | score (msg : String)
  | zeroDiv
deriving DecidableEq, Repr

/-- Whether a failure is an instance of `ScoreException`. -/
def Err.isScoreException : Err → Bool
  | .score _ => true
  | .zeroDiv => false

abbrev Res (α : Type) := Except Err α

/-- Python float division: raises `ZeroDivisionError` on a zero
denominator, otherwise divides exactly. -/
def pyDiv (a b : ℚ) : Res ℚ :=
  if b = 0 then .error .zeroDiv else .ok (a / b)

/-- `np.any` on a boolean array. -/
def npAny (l : List Bool) : Bool := l.any id

/-- `np.all` on a boolean array. -/
def npAll (l : List Bool) : Bool := l.all id

/-- `np.sum(np.logical_and(a, b))`: elementwise AND, then count of ones. -/
def logicalAndSum (a b : List Bool) : ℕ :=
  ((a.zipWith (· && ·) b).map (fun x => if x then 1 else 0)).sum

/-- `np.sum(a)` on a boolean array (`dtype=np.int`): count of ones. -/
def boolSum (a : List Bool) : ℕ :=
  (a.map (fun x => if x then 1 else 0)).sum

/-- `computeTFPN` from `scoreCommon.py`: forms the negated arrays
`1 - truthBinaryValues` / `1 - testBinaryValues` and sums the four
elementwise conjunctions. -/
def computeTFPN (truthBinaryValues testBinaryValues : List Bool) :
    ℕ × ℕ × ℕ × ℕ :=
  let truthBinaryNegativeValues := truthBinaryValues.map not
  let testBinaryNegativeValues := testBinaryValues.map not
  ( logicalAndSum truthBinaryValues testBinaryValues
  , logicalAndSum truthBinaryNegativeValues testBinaryNegativeValues
  , logicalAndSum truthBinaryNegativeValues testBinaryValues
  , logicalAndSum truthBinaryValues testBinaryNegativeValues )

/-- A metric record: name plus value-or-`None`. -/
abbrev Metric := String × Option ℚ

/-- `computeCommonMetrics` from `scoreCommon.py`: accuracy (unguarded
division), sensitivity (guarded by `np.any(truthBinaryValues)`) and
specificity (guarded by `not np.all(truthBinaryValues)`). A raised
`ZeroDivisionError` propagates as `Err.zeroDiv`. -/
def computeCommonMetrics (truthBinaryValues testBinaryValues : List Bool) :
    Res (List Metric) :=
  let tfpn := computeTFPN truthBinaryValues testBinaryValues
  let truePositive := tfpn.1
  let trueNegative := tfpn.2.1
  let falsePositive := tfpn.2.2.1
  let falseNegative := tfpn.2.2.2
  match pyDiv ((truePositive : ℚ) + trueNegative)
      ((truePositive : ℚ) + trueNegative + falsePositive + falseNegative) with
  | .error e => .error e
  | .ok accuracy =>
    match (if npAny truthBinaryValues then
        (pyDiv (truePositive : ℚ) ((truePositive : ℚ) + falseNegative)).map some
      else .ok none) with
    | .error e => .error e
    | .ok sensitivity =>
      match (if !npAll truthBinaryValues then
          (pyDiv (trueNegative : ℚ) ((trueNegative : ℚ) + falsePositive)).map some
        else .ok none) with
      | .error e => .error e
      | .ok specificity =>
        .ok [ ("accuracy", some accuracy)
            , ("sensitivity", sensitivity)
            , ("specificity", specificity) ]

/-- `computeSimilarityMetrics` from `scoreCommon.py`: Jaccard and Dice,
both with guarded divisions (so they never raise). -/
def computeSimilarityMetrics (truthBinaryValues testBinaryValues : List Bool) :
    List Metric :=
  let tfpn := computeTFPN truthBinaryValues testBinaryValues
  let truePositive := tfpn.1
  let falsePositive := tfpn.2.2.1
  let falseNegative := tfpn.2.2.2
  let truthValuesSum := boolSum truthBinaryValues
  let testValuesSum := boolSum testBinaryValues
  [ ("jaccard",
      if truePositive + falseNegative + falsePositive ≠ 0 then
        some ((truePositive : ℚ) /
          ((truePositive : ℚ) + falseNegative + falsePositive))
      else none)
  , ("dice",
      if truthValuesSum + testValuesSum ≠ 0 then
        some ((2 * truePositive : ℚ) /
          ((truthValuesSum : ℚ) + testValuesSum))
      else none) ]

/- ### Helper lemmas about the confusion-matrix counts -/

theorem logicalAndSum_eq_countP (a b : List Bool) :
    logicalAndSum a b = (a.zip b).countP (fun x => x.1 && x.2) := by
  induction a generalizing b with
  | nil => simp [logicalAndSum]
  | cons x xs ih =>
    cases b with
    | nil => simp [logicalAndSum]
    | cons y ys =>
      simp only [logicalAndSum, List.zipWith_cons_cons, List.map_cons,
        List.sum_cons, List.zip_cons_cons, List.countP_cons]
      rw [← logicalAndSum, ih]
      cases x <;> cases y <;> simp [Nat.add_comm]

theorem zip_map_not (a b : List Bool) (p : Bool → Bool → Bool) :
    ((a.map not).zip (b.map not)).countP (fun x => p x.1 x.2) =
      (a.zip b).countP (fun x => p (!x.1) (!x.2)) := by
  induction a generalizing b with
  | nil => simp
  | cons x xs ih =>
    cases b with
    | nil => simp
    | cons y ys =>
      simp only [List.map_cons, List.zip_cons_cons, List.countP_cons, ih]

theorem zip_map_not_left (a b : List Bool) (p : Bool → Bool → Bool) :
    ((a.map not).zip b).countP (fun x => p x.1 x.2) =
      (a.zip b).countP (fun x => p (!x.1) x.2) := by
  induction a generalizing b with
  | nil => simp
  | cons x xs ih =>
    cases b with
    | nil => simp
    | cons y ys =>
      simp only [List.map_cons, List.zip_cons_cons, List.countP_cons, ih]

theorem zip_map_not_right (a b : List Bool) (p : Bool → Bool → Bool) :
    (a.zip (b.map not)).countP (fun x => p x.1 x.2) =
      (a.zip b).countP (fun x => p x.1 (!x.2)) := by
  induction a generalizing b with
  | nil => simp
  | cons x xs ih =>
    cases b with
    | nil => simp
    | cons y ys =>
      simp only [List.map_cons, List.zip_cons_cons, List.countP_cons, ih]

theorem computeTFPN_spec (truth test : List Bool) :
    computeTFPN truth test =
      ( (truth.zip test).countP (fun x => x.1 && x.2)
      , (truth.zip test).countP (fun x => !x.1 && !x.2)
      , (truth.zip test).countP (fun x => !x.1 && x.2)
      , (truth.zip test).countP (fun x => x.1 && !x.2) ) := by
  have h1 := logicalAndSum_eq_countP truth test
  have h2 : logicalAndSum (truth.map not) (test.map not) =
      (truth.zip test).countP (fun x => !x.1 && !x.2) := by
    rw [logicalAndSum_eq_countP, zip_map_not]
  have h3 : logicalAndSum (truth.map not) test =
      (truth.zip test).countP (fun x => !x.1 && x.2) := by
    rw [logicalAndSum_eq_countP, zip_map_not_left]
  have h4 : logicalAndSum truth (test.map not) =
      (truth.zip test).countP (fun x => x.1 && !x.2) := by
    rw [logicalAndSum_eq_countP, zip_map_not_right]
  simp only [computeTFPN, h1, h2, h3, h4]

theorem countP_four_split (l : List (Bool × Bool)) :
    l.countP (fun x => x.1 && x.2) + l.countP (fun x => !x.1 && !x.2) +
      l.countP (fun x => !x.1 && x.2) + l.countP (fun x => x.1 && !x.2) =
    l.length := by
  induction l with
  | nil => simp
  | cons x xs ih =>
    obtain ⟨a, b⟩ := x
    simp only [List.countP_cons, List.length_cons]
    cases a <;> cases b <;> simp <;> omega

theorem countP_fst_split (l : List (Bool × Bool)) :
    l.countP (fun x => x.1 && x.2) + l.countP (fun x => x.1 && !x.2) =
      l.countP (fun x => x.1) := by
  induction l with
  | nil => simp
  | cons x xs ih =>
    obtain ⟨a, b⟩ := x
    simp only [List.countP_cons]
    cases a <;> cases b <;> simp <;> omega

theorem countP_fst_neg_split (l : List (Bool × Bool)) :
    l.countP (fun x => !x.1 && !x.2) + l.countP (fun x => !x.1 && x.2) =
      l.countP (fun x => !x.1) := by
  induction l with
  | nil => simp
  | cons x xs ih =>
    obtain ⟨a, b⟩ := x
    simp only [List.countP_cons]
    cases a <;> cases b <;> simp <;> omega

theorem countP_zip_fst (truth test : List Bool)
    (h : truth.length = test.length) :
    (truth.zip test).countP (fun x => x.1) = truth.count true := by
  induction truth generalizing test with
  | nil => simp
  | cons x xs ih =>
    cases test with
    | nil => simp at h
    | cons y ys =>
      simp only [List.zip_cons_cons, List.countP_cons, List.count_cons]
      rw [ih ys (by simpa using h)]
      cases x <;> simp

theorem countP_zip_fst_neg (truth test : List Bool)
    (h : truth.length = test.length) :
    (truth.zip test).countP (fun x => !x.1) = truth.count false := by
  induction truth generalizing test with
  | nil => simp
  | cons x xs ih =>
    cases test with
    | nil => simp at h
    | cons y ys =>
      simp only [List.zip_cons_cons, List.countP_cons, List.count_cons]
      rw [ih ys (by simpa using h)]
      cases x <;> simp

theorem npAny_eq_count (l : List Bool) : npAny l = (l.count true ≠ 0 : Bool) := by
  induction l with
  | nil => simp [npAny]
  | cons x xs ih =>
    cases x
    · simpa [npAny, List.count_cons] using ih
    · simp [npAny, List.count_cons]

theorem npAll_eq_count (l : List Bool) : npAll l = (l.count false = 0 : Bool) := by
  induction l with
  | nil => simp [npAll]
  | cons x xs ih =>
    cases x
    · simp [npAll, List.count_cons]
    · simpa [npAll, List.count_cons] using ih

theorem boolSum_eq_count (l : List Bool) : boolSum l = l.count true := by
  induction l with
  | nil => simp [boolSum]
  | cons x xs ih =>
    simp only [boolSum, List.map_cons, List.sum_cons, List.count_cons]
    rw [← boolSum, ih]
    cases x <;> simp [Nat.add_comm]

theorem countP_snd_split (l : List (Bool × Bool)) :
    l.countP (fun x => x.1 && x.2) + l.countP (fun x => !x.1 && x.2) =
      l.countP (fun x => x.2) := by
  induction l with
  | nil => simp
  | cons x xs ih =>
    obtain ⟨a, b⟩ := x
    simp only [List.countP_cons]
    cases a <;> cases b <;> simp <;> omega

theorem countP_zip_snd (truth test : List Bool)
    (h : truth.length = test.length) :
    (truth.zip test).countP (fun x => x.2) = test.count true := by
  induction truth generalizing test with
  | nil =>
    cases test with
    | nil => simp
    | cons y ys => simp at h
  | cons x xs ih =>
    cases test with
    | nil => simp at h
    | cons y ys =>
      simp only [List.zip_cons_cons, List.countP_cons, List.count_cons]
      rw [ih ys (by simpa using h)]
      cases y <;> simp

/-- C1: `computeTFPN` returns the four confusion counts — true positives
(both true), true negatives (both false), false positives (truth false,
prediction true), false negatives (truth true, prediction false) — and for
equal-length inputs the four counts sum to the common length. -/
theorem computeTFPN_counts (truth test : List Bool)
    (hlen : truth.length = test.length) :
    (computeTFPN truth test).1 =
      (truth.zip test).countP (fun x => x.1 && x.2) ∧
    (computeTFPN truth test).2.1 =
      (truth.zip test).countP (fun x => !x.1 && !x.2) ∧
    (computeTFPN truth test).2.2.1 =
      (truth.zip test).countP (fun x => !x.1 && x.2) ∧
    (computeTFPN truth test).2.2.2 =
      (truth.zip test).countP (fun x => x.1 && !x.2) ∧
    (computeTFPN truth test).1 + (computeTFPN truth test).2.1 +
      (computeTFPN truth test).2.2.1 + (computeTFPN truth test).2.2.2 =
      truth.length := by
  rw [computeTFPN_spec]
  refine ⟨rfl, rfl, rfl, rfl, ?_⟩
  rw [countP_four_split, List.length_zip, hlen, min_self]

/-- Witness for C1 at truth `[true, false]`, prediction `[true, true]`. -/
theorem computeTFPN_counts_witness :
    ([true, false] : List Bool).length = ([true, true] : List Bool).length ∧
    ((computeTFPN [true, false] [true, true]).1 =
        ([(true, true), (false, true)] : List (Bool × Bool)).countP
          (fun x => x.1 && x.2) ∧
      (computeTFPN [true, false] [true, true]).2.1 =
        ([(true, true), (false, true)] : List (Bool × Bool)).countP
          (fun x => !x.1 && !x.2) ∧
      (computeTFPN [true, false] [true, true]).2.2.1 =
        ([(true, true), (false, true)] : List (Bool × Bool)).countP
          (fun x => !x.1 && x.2) ∧
      (computeTFPN [true, false] [true, true]).2.2.2 =
        ([(true, true), (false, true)] : List (Bool × Bool)).countP
          (fun x => x.1 && !x.2) ∧
      (computeTFPN [true, false] [true, true]).1 +
        (computeTFPN [true, false] [true, true]).2.1 +
        (computeTFPN [true, false] [true, true]).2.2.1 +
        (computeTFPN [true, false] [true, true]).2.2.2 =
        ([true, false] : List Bool).length) :=
  ⟨rfl, computeTFPN_counts [true, false] [true, true] rfl⟩

theorem tfpn_sens_den (truth test : List Bool)
    (hlen : truth.length = test.length) :
    (computeTFPN truth test).1 + (computeTFPN truth test).2.2.2 =
      truth.count true := by
  rw [computeTFPN_spec]
  exact (countP_fst_split _).trans (countP_zip_fst truth test hlen)

theorem tfpn_spec_den (truth test : List Bool)
    (hlen : truth.length = test.length) :
    (computeTFPN truth test).2.1 + (computeTFPN truth test).2.2.1 =
      truth.count false := by
  rw [computeTFPN_spec]
  exact (countP_fst_neg_split _).trans (countP_zip_fst_neg truth test hlen)

theorem tfpn_total (truth test : List Bool)
    (hlen : truth.length = test.length) :
    (computeTFPN truth test).1 + (computeTFPN truth test).2.1 +
      (computeTFPN truth test).2.2.1 + (computeTFPN truth test).2.2.2 =
      truth.length := by
  rw [computeTFPN_spec]
  rw [countP_four_split, List.length_zip, hlen, min_self]

/-- C2: on non-empty equal-length inputs `computeCommonMetrics` succeeds
(no division raises); sensitivity is `None` exactly when the ground truth
has no positive sample and is `TP/(TP+FN)` otherwise; specificity is
`None` exactly when the ground truth has no negative sample and is
`TN/(TN+FP)` otherwise. -/
theorem computeCommonMetrics_guards (truth test : List Bool)
    (hne : truth ≠ []) (hlen : truth.length = test.length) :
    ∃ a s p,
      computeCommonMetrics truth test =
        .ok [("accuracy", some a), ("sensitivity", s), ("specificity", p)] ∧
      (s = none ↔ truth.count true = 0) ∧
      (truth.count true ≠ 0 →
        s = some (((computeTFPN truth test).1 : ℚ) /
          ((computeTFPN truth test).1 + ((computeTFPN truth test).2.2.2 : ℚ)))) ∧
      (p = none ↔ truth.count false = 0) ∧
      (truth.count false ≠ 0 →
        p = some (((computeTFPN truth test).2.1 : ℚ) /
          ((computeTFPN truth test).2.1 + ((computeTFPN truth test).2.2.1 : ℚ)))) := by
  have hsd := tfpn_sens_den truth test hlen
  have hpd := tfpn_spec_den truth test hlen
  have htot := tfpn_total truth test hlen
  have hlen0 : truth.length ≠ 0 := fun h => hne (List.length_eq_zero.mp h)
  set tp := (computeTFPN truth test).1 with htp
  set tn := (computeTFPN truth test).2.1 with htn
  set fp := (computeTFPN truth test).2.2.1 with hfp
  set fn := (computeTFPN truth test).2.2.2 with hfn
  have hqtot : ((tp : ℚ) + tn + fp + fn) ≠ 0 := by
    have h0 : tp + tn + fp + fn ≠ 0 := by rw [htot]; exact hlen0
    exact_mod_cast h0
  have hacc : pyDiv ((tp : ℚ) + tn) ((tp : ℚ) + tn + fp + fn) =
      .ok (((tp : ℚ) + tn) / ((tp : ℚ) + tn + fp + fn)) := by
    unfold pyDiv; rw [if_neg hqtot]
  refine ⟨((tp : ℚ) + tn) / ((tp : ℚ) + tn + fp + fn),
    (if truth.count true ≠ 0 then some ((tp : ℚ) / ((tp : ℚ) + fn)) else none),
    (if truth.count false ≠ 0 then some ((tn : ℚ) / ((tn : ℚ) + fp)) else none),
    ?_, ?_, ?_, ?_, ?_⟩
  · unfold computeCommonMetrics
    dsimp only
    rw [← htp, ← htn, ← hfp, ← hfn, hacc]
    by_cases hca : truth.count true = 0
    · by_cases hcf : truth.count false = 0
      · simp [npAny_eq_count, npAll_eq_count, hca, hcf]
      · have hq : ((tn : ℚ) + fp) ≠ 0 := by
          have : tn + fp ≠ 0 := by rw [hpd]; exact hcf
          exact_mod_cast this
        simp [npAny_eq_count, npAll_eq_count, hca, hcf, pyDiv, if_neg hq,
          Except.map]
    · have hq : ((tp : ℚ) + fn) ≠ 0 := by
        have : tp + fn ≠ 0 := by rw [hsd]; exact hca
        exact_mod_cast this
      by_cases hcf : truth.count false = 0
      · simp [npAny_eq_count, npAll_eq_count, hca, hcf, pyDiv, if_neg hq,
          Except.map]
      · have hq2 : ((tn : ℚ) + fp) ≠ 0 := by
          have : tn + fp ≠ 0 := by rw [hpd]; exact hcf
          exact_mod_cast this
        simp [npAny_eq_count, npAll_eq_count, hca, hcf, pyDiv, if_neg hq,
          if_neg hq2, Except.map]
  · by_cases hca : truth.count true = 0 <;> simp [hca]
  · intro hca; simp [hca]
  · by_cases hcf : truth.count false = 0 <;> simp [hcf]
  · intro hcf; simp [hcf]

/-- Witness for C2 at truth `[true, false]`, prediction `[false, false]`. -/
theorem computeCommonMetrics_guards_witness :
    ([true, false] : List Bool) ≠ [] ∧
    ([true, false] : List Bool).length = ([false, false] : List Bool).length ∧
    ∃ a s p,
      computeCommonMetrics [true, false] [false, false] =
        .ok [("accuracy", some a), ("sensitivity", s), ("specificity", p)] ∧
      (s = none ↔ ([true, false] : List Bool).count true = 0) ∧
      (([true, false] : List Bool).count true ≠ 0 →
        s = some (((computeTFPN [true, false] [false, false]).1 : ℚ) /
          ((computeTFPN [true, false] [false, false]).1 +
            ((computeTFPN [true, false] [false, false]).2.2.2 : ℚ)))) ∧
      (p = none ↔ ([true, false] : List Bool).count false = 0) ∧
      (([true, false] : List Bool).count false ≠ 0 →
        p = some (((computeTFPN [true, false] [false, false]).2.1 : ℚ) /
          ((computeTFPN [true, false] [false, false]).2.1 +
            ((computeTFPN [true, false] [false, false]).2.2.1 : ℚ)))) :=
  ⟨by decide, rfl,
    computeCommonMetrics_guards [true, false] [false, false] (by decide) rfl⟩

/-- C3: `computeSimilarityMetrics` reports Jaccard as `TP/(TP+FN+FP)`,
`None` exactly when `TP+FN+FP = 0`, and Dice as
`2·TP/(truth positives + prediction positives)`, `None` exactly when that
sum is `0`; when both masks are entirely zero both are `None`. -/
theorem computeSimilarityMetrics_guards (truth test : List Bool)
    (hlen : truth.length = test.length) :
    ∃ j d,
      computeSimilarityMetrics truth test = [("jaccard", j), ("dice", d)] ∧
      (j = none ↔ (computeTFPN truth test).1 + (computeTFPN truth test).2.2.2 +
        (computeTFPN truth test).2.2.1 = 0) ∧
      ((computeTFPN truth test).1 + (computeTFPN truth test).2.2.2 +
          (computeTFPN truth test).2.2.1 ≠ 0 →
        j = some (((computeTFPN truth test).1 : ℚ) /
          ((computeTFPN truth test).1 + ((computeTFPN truth test).2.2.2 : ℚ) +
            (computeTFPN truth test).2.2.1))) ∧
      (d = none ↔ truth.count true + test.count true = 0) ∧
      (truth.count true + test.count true ≠ 0 →
        d = some ((2 * (computeTFPN truth test).1 : ℚ) /
          ((truth.count true : ℚ) + test.count true))) ∧
      (truth.count true = 0 → test.count true = 0 → j = none ∧ d = none) := by
  set tp := (computeTFPN truth test).1 with htp
  set fp := (computeTFPN truth test).2.2.1 with hfp
  set fn := (computeTFPN truth test).2.2.2 with hfn
  have hsd : tp + fn = truth.count true := tfpn_sens_den truth test hlen
  have hfp_le : fp ≤ test.count true := by
    rw [hfp, computeTFPN_spec]
    calc (truth.zip test).countP (fun x => !x.1 && x.2)
        ≤ (truth.zip test).countP (fun x => x.1 && x.2) +
            (truth.zip test).countP (fun x => !x.1 && x.2) := Nat.le_add_left _ _
      _ = (truth.zip test).countP (fun x => x.2) := countP_snd_split _
      _ = test.count true := countP_zip_snd truth test hlen
  refine ⟨(if tp + fn + fp ≠ 0 then
      some ((tp : ℚ) / ((tp : ℚ) + fn + fp)) else none),
    (if boolSum truth + boolSum test ≠ 0 then
      some ((2 * tp : ℚ) / ((boolSum truth : ℚ) + boolSum test)) else none),
    ?_, ?_, ?_, ?_, ?_, ?_⟩
  · rfl
  · by_cases h : tp + fn + fp = 0 <;> simp [h]
  · intro h; simp [h]
  · rw [boolSum_eq_count, boolSum_eq_count]
    by_cases h : truth.count true + test.count true = 0 <;> simp [h]
  · rw [boolSum_eq_count, boolSum_eq_count]
    intro h; simp [h]
  · intro h1 h2
    have hj : tp + fn + fp = 0 := by
      have : tp + fn = 0 := by rw [hsd]; exact h1
      omega
    constructor
    · simp [hj]
    · rw [boolSum_eq_count, boolSum_eq_count, h1, h2]
      simp

/-- Witness for C3 at truth `[false, false]`, prediction `[false, false]`
(the all-zero-masks scenario). -/
theorem computeSimilarityMetrics_guards_witness :
    ([false, false] : List Bool).length =
      ([false, false] : List Bool).length ∧
    ∃ j d,
      computeSimilarityMetrics [false, false] [false, false] =
        [("jaccard", j), ("dice", d)] ∧
      (j = none ↔ (computeTFPN [false, false] [false, false]).1 +
        (computeTFPN [false, false] [false, false]).2.2.2 +
        (computeTFPN [false, false] [false, false]).2.2.1 = 0) ∧
      ((computeTFPN [false, false] [false, false]).1 +
          (computeTFPN [false, false] [false, false]).2.2.2 +
          (computeTFPN [false, false] [false, false]).2.2.1 ≠ 0 →
        j = some (((computeTFPN [false, false] [false, false]).1 : ℚ) /
          ((computeTFPN [false, false] [false, false]).1 +
            ((computeTFPN [false, false] [false, false]).2.2.2 : ℚ) +
            (computeTFPN [false, false] [false, false]).2.2.1))) ∧
      (d = none ↔ ([false, false] : List Bool).count true +
        ([false, false] : List Bool).count true = 0) ∧
      (([false, false] : List Bool).count true +
          ([false, false] : List Bool).count true ≠ 0 →
        d = some ((2 * (computeTFPN [false, false] [false, false]).1 : ℚ) /
          ((([false, false] : List Bool).count true : ℚ) +
            ([false, false] : List Bool).count true))) ∧
      (([false, false] : List Bool).count true = 0 →
        ([false, false] : List Bool).count true = 0 → j = none ∧ d = none) :=
  ⟨rfl, computeSimilarityMetrics_guards [false, false] [false, false] rfl⟩

/-- C10: on empty inputs `computeCommonMetrics` fails with a
`ZeroDivisionError` coming from the accuracy division, and that failure is
not a `ScoreException`; on the same input the sensitivity guard
(`np.any`) is false and the specificity guard (`np.all`) is true, so both
guarded metrics would have been `None`. -/
theorem computeCommonMetrics_empty :
    computeCommonMetrics [] [] = .error .zeroDiv ∧
    Err.zeroDiv.isScoreException = false ∧
    npAny [] = false ∧ npAll [] = true := by
  refine ⟨?_, rfl, rfl, rfl⟩
  unfold computeCommonMetrics
  dsimp only
  have h0 : computeTFPN ([] : List Bool) [] = (0, 0, 0, 0) := rfl
  rw [h0]
  simp [pyDiv]

/- ### Segmentation image binarization (`assertBinaryImage`) -/

/-- One pixel of the in-place `image /= highValue; image *= 255` pass on a
`uint8` array: floor division, then multiplication wrapping modulo 256. -/
def rescalePixel (highValue x : ℕ) : ℕ := x / highValue * 255 % 256

/-- The message of the `ScoreException` raised by `assertBinaryImage`. -/
def binaryErrMsg (imageName : String) : String :=
  "Image " ++ imageName ++ " contains values other than 0 and 255."

/-- Python `set(vals) > {0, 255}`: `vals` is a proper superset of
`{0, 255}`, i.e. it holds `0`, `255` and some further value. -/
def properSupOf0And255 (vals : List ℕ) : Bool :=
  decide (0 ∈ vals) && decide (255 ∈ vals) &&
    vals.any (fun x => !(x == 0 || x == 255))

/-- `assertBinaryImage` from `scoreCommon.py`. The distinct pixel values
(`set(np.unique(image))`) are `image.dedup`; `pick` models Python's
`set.pop()`, which returns an arbitrary element of the (non-empty) set of
non-zero values. -/
def assertBinaryImage (pick : List ℕ → ℕ) (image : List ℕ)
    (imageName : String) : Res (List ℕ) :=
  let imageValues := image.dedup
  if imageValues.all (fun x => x == 0 || x == 255) then .ok image
  else if imageValues.length ≤ 2 then
    let highValue := pick (imageValues.filter (fun x => x ≠ 0))
    let corrected := image.map (rescalePixel highValue)
    if properSupOf0And255 corrected.dedup then
      .error (.score (binaryErrMsg imageName))
    else .ok corrected
  else .error (.score (binaryErrMsg imageName))

theorem eq_singleton_of_nodup_mem {l : List ℕ} {v : ℕ} (hnd : l.Nodup)
    (hm : ∀ x, x ∈ l ↔ x = v) : l = [v] := by
  cases l with
  | nil => exact absurd ((hm v).mpr rfl) (List.not_mem_nil v)
  | cons a as =>
    have ha : a = v := (hm a).mp (List.mem_cons_self a as)
    cases as with
    | nil => rw [ha]
    | cons b bs =>
      have hb : b = v := (hm b).mp (by simp)
      exact absurd (ha.trans hb.symm ▸ List.mem_cons_self b bs)
        (List.Nodup.not_mem hnd)

theorem not_properSup_of_mem_binary {l : List ℕ}
    (h : ∀ x ∈ l, x = 0 ∨ x = 255) : properSupOf0And255 l = false := by
  unfold properSupOf0And255
  have : l.any (fun x => !(x == 0 || x == 255)) = false := by
    rw [List.any_eq_false]
    intro x hx
    rcases h x hx with h0 | h255
    · simp [h0]
    · simp [h255]
  rw [this, Bool.and_false]

/-- C4: an image whose distinct pixel values already lie in `{0, 255}` is
returned unchanged; an image whose distinct values are exactly `{0, v}`
for a single non-zero `v ≠ 255` is rescaled so that its distinct values
become exactly `{0, 255}`. -/
theorem assertBinaryImage_ok (pick : List ℕ → ℕ) (image : List ℕ)
    (imageName : String) (v : ℕ)
    (hpick : ∀ x, pick [x] = x) :
    (image.toFinset ⊆ {0, 255} →
      assertBinaryImage pick image imageName = .ok image) ∧
    (image.toFinset = {0, v} → v ≠ 0 → v ≠ 255 →
      assertBinaryImage pick image imageName =
        .ok (image.map (rescalePixel v)) ∧
      (image.map (rescalePixel v)).toFinset = ({0, 255} : Finset ℕ)) := by
  constructor
  · intro hsub
    have hall : image.dedup.all (fun x => x == 0 || x == 255) = true := by
      rw [List.all_eq_true]
      intro x hx
      have : x ∈ ({0, 255} : Finset ℕ) := hsub (by
        rw [List.mem_toFinset]; exact List.mem_dedup.mp hx)
      simp only [Finset.mem_insert, Finset.mem_singleton] at this
      rcases this with h | h
      · simp [h]
      · simp [h]
    simp [assertBinaryImage, hall]
  · intro hv hv0 hv255
    have hvmem : v ∈ image := by
      have : v ∈ image.toFinset := by rw [hv]; simp
      exact List.mem_toFinset.mp this
    have hmem_iff : ∀ x, x ∈ image ↔ x = 0 ∨ x = v := by
      intro x
      rw [← List.mem_toFinset, hv]
      simp
    have hall : image.dedup.all (fun x => x == 0 || x == 255) = false := by
      rw [List.all_eq_false]
      exact ⟨v, List.mem_dedup.mpr hvmem, by simp [hv0, hv255]⟩
    have hcard : image.dedup.length = 2 := by
      rw [← List.card_toFinset, hv]
      rw [Finset.card_insert_of_not_mem (by simp [Ne.symm hv0])]
      simp
    have hfilter : image.dedup.filter (fun x => x ≠ 0) = [v] := by
      apply eq_singleton_of_nodup_mem (List.Nodup.filter _ image.nodup_dedup)
      intro x
      constructor
      · intro hx
        have h1 := List.mem_filter.mp hx
        have h2 : x ≠ 0 := by simpa using h1.2
        rcases (hmem_iff x).mp (List.mem_dedup.mp h1.1) with h | h
        · exact absurd h h2
        · exact h
      · rintro rfl
        exact List.mem_filter.mpr
          ⟨List.mem_dedup.mpr hvmem, by simpa using hv0⟩
    have hres0 : rescalePixel v 0 = 0 := by simp [rescalePixel]
    have hresv : rescalePixel v v = 255 := by
      unfold rescalePixel
      rw [Nat.div_self (Nat.pos_of_ne_zero hv0)]
    have himg2 : (image.map (rescalePixel v)).toFinset = ({0, 255} : Finset ℕ) := by
      ext x
      simp only [List.mem_toFinset, List.mem_map, Finset.mem_insert,
        Finset.mem_singleton]
      constructor
      · rintro ⟨y, hy, rfl⟩
        rcases (hmem_iff y).mp hy with rfl | rfl
        · exact Or.inl hres0
        · exact Or.inr hresv
      · rintro (rfl | rfl)
        · exact ⟨0, (hmem_iff 0).mpr (Or.inl rfl), hres0⟩
        · exact ⟨v, hvmem, hresv⟩
    have hbin2 : ∀ x ∈ image.map (rescalePixel v), x = 0 ∨ x = 255 := by
      intro x hx
      have : x ∈ ({0, 255} : Finset ℕ) := by
        rw [← himg2]; exact List.mem_toFinset.mpr hx
      simpa using this
    have hns : properSupOf0And255 ((image.map (rescalePixel v)).dedup) = false :=
      not_properSup_of_mem_binary (fun x hx => hbin2 x (List.mem_dedup.mp hx))
    have hfilter2 : List.filter (fun x => !decide (x = 0)) image.dedup = [v] := by
      simpa using hfilter
    refine ⟨?_, himg2⟩
    simp [assertBinaryImage, hall, hcard, hfilter2, hpick, hns]

/-- Witness for C4 at the image `[0, 128]` (the `{0, 128} → {0, 255}`
correction scenario), with `set.pop()` modelled by the head. -/
theorem assertBinaryImage_ok_witness :
    (([0, 128] : List ℕ).toFinset = ({0, 128} : Finset ℕ)) ∧
    (assertBinaryImage (fun l => l.headD 0) [0, 128] "mask" =
        .ok (([0, 128] : List ℕ).map (rescalePixel 128)) ∧
      (([0, 128] : List ℕ).map (rescalePixel 128)).toFinset =
        ({0, 255} : Finset ℕ)) :=
  ⟨by decide,
    (assertBinaryImage_ok (fun l => l.headD 0) [0, 128] "mask" 128
      (fun x => rfl)).2 (by decide) (by decide) (by decide)⟩

/-- Counterexample to C5 as stated: the image `[100, 200]` has exactly two
distinct non-zero values, neither `255`, yet `assertBinaryImage` raises no
exception — whichever of the two values `set.pop()` returns, the
rescaled distinct values miss `0` or stay within two values, so the
proper-superset re-check `set(...) > {0, 255}` never fires. -/
theorem assertBinaryImage_two_nonzero_accepted :
    ([100, 200] : List ℕ).dedup = [100, 200] ∧
    (100 : ℕ) ≠ 0 ∧ (100 : ℕ) ≠ 255 ∧ (200 : ℕ) ≠ 0 ∧ (200 : ℕ) ≠ 255 ∧
    assertBinaryImage (fun l => l.headD 0) [100, 200] "mask" =
      .ok [255, 254] ∧
    assertBinaryImage (fun l => l.getLastD 0) [100, 200] "mask" =
      .ok [0, 255] := by
  refine ⟨by decide, by decide, by decide, by decide, by decide, ?_, ?_⟩ <;> rfl

/-- C5 (amended): `assertBinaryImage` raises a `ScoreException` naming the
image exactly for images with more than two distinct pixel values; an
image with at most two distinct values never raises — in particular one
whose distinct values are two non-zero values other than `255`
(e.g. `{100, 200}`) is accepted after the (possibly lossy) rescale,
because the re-check only fires on a proper superset of `{0, 255}`, which
a two-valued rescale result can never be. -/
theorem assertBinaryImage_error_iff (pick : List ℕ → ℕ) (image : List ℕ)
    (imageName : String) :
    (2 < image.dedup.length →
      assertBinaryImage pick image imageName =
        .error (.score (binaryErrMsg imageName))) ∧
    (image.dedup.length ≤ 2 →
      (assertBinaryImage pick image imageName).isOk = true) := by
  constructor
  · intro hlen
    have hall : image.dedup.all (fun x => x == 0 || x == 255) = false := by
      by_contra h
      have hall' : image.dedup.all (fun x => x == 0 || x == 255) = true := by
        revert h
        cases image.dedup.all (fun x => x == 0 || x == 255)
        · intro h; exact absurd rfl h
        · intro _; rfl
      have hsub : image.toFinset ⊆ ({0, 255} : Finset ℕ) := by
        intro x hx
        have hx' : x ∈ image.dedup := List.mem_dedup.mpr (List.mem_toFinset.mp hx)
        have := List.all_eq_true.mp hall' x hx'
        simp only [Bool.or_eq_true, beq_iff_eq] at this
        simpa using this
      have hcard : image.dedup.length ≤ 2 := by
        rw [← List.card_toFinset]
        calc image.toFinset.card ≤ ({0, 255} : Finset ℕ).card :=
              Finset.card_le_card hsub
          _ = 2 := by decide
      omega
    unfold assertBinaryImage
    dsimp only
    rw [hall]
    simp only [Bool.false_eq_true, if_false]
    rw [if_neg (by omega)]
  · intro hlen
    by_cases hall : image.dedup.all (fun x => x == 0 || x == 255) = true
    · unfold assertBinaryImage
      dsimp only
      rw [hall]
      rfl
    · have hall' : image.dedup.all (fun x => x == 0 || x == 255) = false := by
        revert hall
        cases image.dedup.all (fun x => x == 0 || x == 255)
        · intro _; rfl
        · intro h; exact absurd rfl h
      set f := rescalePixel (pick (image.dedup.filter (fun x => x ≠ 0))) with hf
      have hcard2 : (image.map f).dedup.length ≤ 2 := by
        rw [← List.card_toFinset]
        have hsub : (image.map f).toFinset ⊆ image.toFinset.image f := by
          intro x hx
          rw [List.mem_toFinset] at hx
          obtain ⟨y, hy, rfl⟩ := List.mem_map.mp hx
          exact Finset.mem_image.mpr ⟨y, List.mem_toFinset.mpr hy, rfl⟩
        calc (image.map f).toFinset.card ≤ (image.toFinset.image f).card :=
              Finset.card_le_card hsub
          _ ≤ image.toFinset.card := Finset.card_image_le
          _ = image.dedup.length := List.card_toFinset image
          _ ≤ 2 := hlen
      have hns : properSupOf0And255 (image.map f).dedup = false := by
        by_contra h
        have h' : properSupOf0And255 (image.map f).dedup = true := by
          revert h
          cases properSupOf0And255 (image.map f).dedup
          · intro h; exact absurd rfl h
          · intro _; rfl
        unfold properSupOf0And255 at h'
        rw [Bool.and_eq_true, Bool.and_eq_true] at h'
        obtain ⟨⟨h0b, h255b⟩, hany⟩ := h'
        have h0 : (0 : ℕ) ∈ (image.map f).dedup := of_decide_eq_true h0b
        have h255 : (255 : ℕ) ∈ (image.map f).dedup := of_decide_eq_true h255b
        rw [List.any_eq_true] at hany
        obtain ⟨x, hx, hxb⟩ := hany
        have hx0 : x ≠ 0 := by rintro rfl; simp at hxb
        have hx255 : x ≠ 255 := by rintro rfl; simp at hxb
        have hsub3 : ({0, 255, x} : Finset ℕ) ⊆ (image.map f).dedup.toFinset := by
          intro y hy
          simp only [Finset.mem_insert, Finset.mem_singleton] at hy
          rw [List.mem_toFinset]
          rcases hy with rfl | rfl | rfl
          · exact h0
          · exact h255
          · exact hx
        have hc3 : ({0, 255, x} : Finset ℕ).card = 3 := by
          rw [Finset.card_insert_of_not_mem (by
            simp only [Finset.mem_insert, Finset.mem_singleton]
            push_neg
            exact ⟨by omega, fun h => hx0 h.symm⟩)]
          rw [Finset.card_insert_of_not_mem (by
            simp only [Finset.mem_singleton]
            exact fun h => hx255 h.symm)]
          simp
        have hle := Finset.card_le_card hsub3
        rw [hc3] at hle
        have hdc : (image.map f).dedup.toFinset.card ≤ 2 := by
          calc (image.map f).dedup.toFinset.card
              ≤ (image.map f).dedup.length := List.toFinset_card_le _
            _ ≤ 2 := hcard2
        omega
      unfold assertBinaryImage
      dsimp only
      rw [hall']
      simp only [Bool.false_eq_true, if_false]
      rw [if_pos hlen, ← hf, hns]
      rfl

/-- Witness for C5 (amended) at the three-valued image `[0, 100, 200]`
(raises) — and the `≤ 2` branch at `[100, 200]` (accepted). -/
theorem assertBinaryImage_error_iff_witness :
    (2 < ([0, 100, 200] : List ℕ).dedup.length ∧
      assertBinaryImage (fun l => l.headD 0) [0, 100, 200] "mask" =
        .error (.score (binaryErrMsg "mask"))) ∧
    (([100, 200] : List ℕ).dedup.length ≤ 2 ∧
      (assertBinaryImage (fun l => l.headD 0) [100, 200] "mask").isOk = true) :=
  ⟨⟨by decide,
      (assertBinaryImage_error_iff (fun l => l.headD 0) [0, 100, 200]
        "mask").1 (by decide)⟩,
    ⟨by decide,
      (assertBinaryImage_error_iff (fun l => l.headD 0) [100, 200]
        "mask").2 (by decide)⟩⟩

/- ### Specificity at fixed sensitivity (`computeSPECMetrics`)

`sklearn.metrics.roc_curve` is external library code, so the embedding
starts from the point where its two equal-length arrays
(`falsePositiveRates`, `truePositiveRates`) are in hand. -/

/-- The `for`/`else` scan in `computeSPECMetrics`: walk the ROC points in
order and return `1 - falsePositiveRate` at the first point whose
`truePositiveRate >= sensitivityThreshold`; `0.0` when the loop falls
through to its `else`. -/
def specScan (falsePositiveRates truePositiveRates : List ℚ)
    (sensitivityThreshold : ℚ) : ℚ :=
  match falsePositiveRates, truePositiveRates with
  | f :: fs, t :: ts =>
    if sensitivityThreshold ≤ t then 1 - f
    else specScan fs ts sensitivityThreshold
  | _, _ => 0

/-- Python `.replace('.', '_')` for the single-character pattern: every
period becomes an underscore. -/
def dotsToUnderscores (s : String) : String :=
  ⟨s.data.map (fun c => if c = '.' then '_' else c)⟩

/-- Models Python `'%g' % x` for the nonnegative threshold percentages in
use (exactly representable within six fractional digits): decimal
rendering, trailing fractional zeros stripped, the point dropped when the
fraction vanishes. -/
def renderG (q : ℚ) : String :=
  let scaled : ℕ := q.num.toNat * 10 ^ 6 / q.den
  let ip := scaled / 10 ^ 6
  let fr := scaled % 10 ^ 6
  if fr = 0 then toString ip
  else
    let digits := (Nat.toDigits 10 (fr + 10 ^ 6)).drop 1
    let trimmed := (digits.reverse.dropWhile (fun c => c = '0')).reverse
    toString ip ++ "." ++ ⟨trimmed⟩

/-- `'spec_at_sens_%s' % ('%g' % (sensitivityThreshold * 100)).replace('.', '_')`. -/
def specMetricName (sensitivityThreshold : ℚ) : String :=
  "spec_at_sens_" ++ dotsToUnderscores (renderG (sensitivityThreshold * 100))

/-- `computeSPECMetrics` from `scoreCommon.py`, after the ROC curve has
been produced. -/
def computeSPECMetrics (falsePositiveRates truePositiveRates : List ℚ)
    (sensitivityThreshold : ℚ) : List Metric :=
  [ (specMetricName sensitivityThreshold,
      some (specScan falsePositiveRates truePositiveRates
        sensitivityThreshold)) ]

theorem dotsToUnderscores_no_dot (s : String) :
    (dotsToUnderscores s).data.all (fun c => c ≠ '.') = true := by
  unfold dotsToUnderscores
  rw [List.all_eq_true]
  intro c hc
  simp only [List.mem_map] at hc
  obtain ⟨a, _, rfl⟩ := hc
  by_cases h : a = '.' <;> simp [h]

theorem specScan_eq_find (fprs tprs : List ℚ) (thr : ℚ)
    (hlen : fprs.length = tprs.length) :
    specScan fprs tprs thr =
      (match (tprs.zip fprs).find? (fun p => decide (thr ≤ p.1)) with
       | some p => 1 - p.2
       | none => 0) := by
  induction fprs generalizing tprs with
  | nil =>
    cases tprs with
    | nil => rfl
    | cons t ts => simp at hlen
  | cons f fs ih =>
    cases tprs with
    | nil => simp at hlen
    | cons t ts =>
      unfold specScan
      rw [List.zip_cons_cons]
      by_cases h : thr ≤ t
      · rw [if_pos h, List.find?_cons_of_pos _ (by simpa using h)]
      · rw [if_neg h, List.find?_cons_of_neg _ (by simpa using h)]
        exact ih ts (by simpa using hlen)

set_option maxRecDepth 4000 in
/-- C6: `computeSPECMetrics` reports `1 - falsePositiveRate` at the first
ROC point whose `truePositiveRate ≥ τ` (`0.0` when no point reaches `τ`),
under a metric name that renders `τ·100` with every period replaced by an
underscore — so the name never holds a period, and `τ = 0.872` yields
`spec_at_sens_87_2`. -/
theorem computeSPECMetrics_spec (fprs tprs : List ℚ) (thr : ℚ)
    (hlen : fprs.length = tprs.length) :
    computeSPECMetrics fprs tprs thr =
      [(specMetricName thr, some (specScan fprs tprs thr))] ∧
    specScan fprs tprs thr =
      (match (tprs.zip fprs).find? (fun p => decide (thr ≤ p.1)) with
       | some p => 1 - p.2
       | none => 0) ∧
    (specMetricName thr).data.all (fun c => c ≠ '.') = true ∧
    specMetricName (872 / 1000 : ℚ) = "spec_at_sens_87_2" := by
  refine ⟨rfl, specScan_eq_find fprs tprs thr hlen, ?_, ?_⟩
  · unfold specMetricName
    have hd : (("spec_at_sens_" : String) ++
        dotsToUnderscores (renderG (thr * 100))).data =
        ("spec_at_sens_" : String).data ++
          (dotsToUnderscores (renderG (thr * 100))).data := rfl
    rw [List.all_eq_true]
    intro c hc
    rw [hd, List.mem_append] at hc
    have hlit : ∀ x ∈ ("spec_at_sens_" : String).data, x ≠ '.' := by decide
    rcases hc with hc | hc
    · exact decide_eq_true (hlit c hc)
    · exact List.all_eq_true.mp
        (dotsToUnderscores_no_dot (renderG (thr * 100))) c hc
  · have hn : ((872 : ℚ) / 1000 * 100).num = 436 := by norm_num
    have hd : ((872 : ℚ) / 1000 * 100).den = 5 := by norm_num
    unfold specMetricName renderG
    rw [hn, hd]
    rfl

/-- Witness for C6 at the two-point curve `fpr = [0, 1]`,
`tpr = [1/2, 1]`, threshold `3/4`. -/
theorem computeSPECMetrics_spec_witness :
    ([0, 1] : List ℚ).length = ([1/2, 1] : List ℚ).length ∧
    (computeSPECMetrics [0, 1] [1/2, 1] (3/4) =
      [(specMetricName (3/4), some (specScan [0, 1] [1/2, 1] (3/4)))] ∧
    specScan [0, 1] [1/2, 1] (3/4) =
      (match (([1/2, 1] : List ℚ).zip ([0, 1] : List ℚ)).find?
          (fun p => decide ((3/4 : ℚ) ≤ p.1)) with
       | some p => 1 - p.2
       | none => 0) ∧
    (specMetricName (3/4)).data.all (fun c => c ≠ '.') = true ∧
    specMetricName (872 / 1000 : ℚ) = "spec_at_sens_87_2") :=
  ⟨rfl, computeSPECMetrics_spec [0, 1] [1/2, 1] (3/4) rfl⟩

/- ### `Score` (`types.py`) -/

/-- The aggregate `Score` dataclass from `types.py`. -/
structure Score where
  overall : ℚ
  validation : ℚ

/-- `Score.to_string`: `f'Overall: {self.overall}\n'` followed by
`f'Validation: {self.validation}'`; `render` stands for Python's float
interpolation. -/
def Score.to_string (render : ℚ → String) (s : Score) : String :=
  ("Overall: " ++ render s.overall ++ "\n") ++
    ("Validation: " ++ render s.validation)

/-- `Score.to_dict`: `{'overall': self.overall, 'validation': self.validation}`. -/
def Score.to_dict (s : Score) : List (String × ℚ) :=
  [("overall", s.overall), ("validation", s.validation)]

theorem string_data_append (a b : String) : (a ++ b).data = a.data ++ b.data :=
  rfl

theorem count_nl_zero_of_no_nl {l : List Char}
    (h : l.all (fun c => c ≠ '\n') = true) : l.count '\n' = 0 := by
  rw [List.count_eq_zero]
  intro hmem
  have := List.all_eq_true.mp h _ hmem
  simp at this

/-- C9: `to_string` is exactly the two-line text
`Overall: <o>\nValidation: <v>` — a single newline between the lines and
no trailing newline (for newline-free value renderings) — and `to_dict`
is exactly the two-entry mapping. -/
theorem Score_to_string_to_dict (render : ℚ → String) (s : Score)
    (h1 : (render s.overall).data.all (fun c => c ≠ '\n') = true)
    (h2 : (render s.validation).data.all (fun c => c ≠ '\n') = true) :
    Score.to_string render s =
      "Overall: " ++ render s.overall ++ "\n" ++
        "Validation: " ++ render s.validation ∧
    (Score.to_string render s).data.count '\n' = 1 ∧
    (Score.to_string render s).data.getLast? ≠ some '\n' ∧
    Score.to_dict s = [("overall", s.overall), ("validation", s.validation)] := by
  have hdata : (Score.to_string render s).data =
      ("Overall: " : String).data ++ (render s.overall).data ++
        ("\n" : String).data ++ ("Validation: " : String).data ++
        (render s.validation).data := by
    unfold Score.to_string
    simp only [string_data_append, List.append_assoc]
  refine ⟨?_, ?_, ?_, rfl⟩
  · apply String.ext
    rw [hdata]
    simp only [string_data_append, List.append_assoc]
  · rw [hdata]
    simp only [List.count_append]
    rw [count_nl_zero_of_no_nl h1, count_nl_zero_of_no_nl h2]
    decide
  · rw [hdata]
    rcases hR : (render s.validation).data with _ | ⟨c, cs⟩
    · rw [List.append_nil]
      rw [List.getLast?_append_of_ne_nil _ (by decide)]
      decide
    · rw [List.getLast?_append_of_ne_nil _ (List.cons_ne_nil c cs)]
      intro hcon
      have hlne : (c :: cs) ≠ [] := List.cons_ne_nil c cs
      rw [List.getLast?_eq_getLast _ hlne] at hcon
      have heq : (c :: cs).getLast hlne = '\n' := by
        injection hcon
      have hmem : '\n' ∈ c :: cs := heq ▸ List.getLast_mem hlne
      have h2' := List.all_eq_true.mp h2
      rw [hR] at h2'
      have hne := h2' _ hmem
      simp at hne

/-- Witness for C9 at `Score ⟨1, 2⟩` with the constant rendering `"x"`. -/
theorem Score_to_string_to_dict_witness :
    (("x" : String).data.all (fun c => c ≠ '\n') = true) ∧
    (Score.to_string (fun _ => "x") ⟨1, 2⟩ =
      "Overall: " ++ "x" ++ "\n" ++ "Validation: " ++ "x" ∧
    (Score.to_string (fun _ => "x") ⟨1, 2⟩).data.count '\n' = 1 ∧
    (Score.to_string (fun _ => "x") ⟨1, 2⟩).data.getLast? ≠ some '\n' ∧
    Score.to_dict ⟨1, 2⟩ =
      [("overall", (1 : ℚ)), ("validation", (2 : ℚ))]) :=
  ⟨by decide, Score_to_string_to_dict (fun _ => "x") ⟨1, 2⟩
    (by decide) (by decide)⟩

/- ### Tabular validation pipeline (`task3.parseCsv`)

`task3.py` is not among the sources (only its test file is), so the
pipeline below is modelled from the spec, §4.1. -/

/-- Modelled from the spec: the fixed, ordered Category Set of the
classification task (`task3.CATEGORIES`). -/
def CATEGORIES : List String :=
  ["MEL", "NV", "BCC", "AKIEC", "BKL", "DF", "VASC"]

/-- Modelled from the spec: one CSV cell as pandas delivers it — missing/
blank, a parsed finite float, or a non-floating-point token (which also
covers identifier strings). -/
inductive Cell where
  | blank
  | num (q : ℚ)
  | str (s : String)
deriving DecidableEq, Repr

/-- A raw submission table: a header row plus data rows, cells aligned
with the header positionally. -/
structure RawCsv where
  header : List String
  rows : List (List Cell)
deriving DecidableEq, Repr

def cellIsBlank : Cell → Bool
  | .blank => true
  | _ => false

def cellNum : Cell → Option ℚ
  | .num q => some q
  | _ => none

/-- The rendering of a cell used in the identifier column. -/
def cellId : Cell → String
  | .str s => s
  | _ => ""

/-- Column selection by name: the cell lying under the first header
occurrence of `name` (headers are unique in valid input). -/
def getCell (header : List String) (row : List Cell) (name : String) : Cell :=
  (((header.zip row).find? (fun x => x.1 = name)).map Prod.snd).getD .blank

/-- `sorted(set(...))`: deduplicate, then sort lexicographically. -/
def sortedDedup (l : List String) : List String :=
  List.insertionSort (· ≤ ·) l.dedup

/-- Python `str` of a list of strings: `['a', 'b']`. -/
def pyStrList (l : List String) : String :=
  "[" ++ String.intercalate ", "
    (l.map (fun s => "\x27" ++ s ++ "\x27")) ++ "]"

def hasCol (header : List String) (name : String) : Bool :=
  decide (name ∈ header)

/-- Categories absent from the header, in Category Set order. -/
def missingCols (header : List String) : List String :=
  CATEGORIES.filter (fun c => !hasCol header c)

/-- Header columns that are neither the index column nor a category. -/
def extraCols (header : List String) : List String :=
  header.filter (fun c => !hasCol ("image" :: CATEGORIES) c)

/-- Whether a row misses a value in some category column. -/
def rowBlank (header : List String) (r : List Cell) : Bool :=
  CATEGORIES.any (fun c => cellIsBlank (getCell header r c))

/-- A row's image identifier. -/
def rowId (header : List String) (r : List Cell) : String :=
  cellId (getCell header r "image")

/-- Whether a category column holds a non-floating-point value in some row. -/
def colBad (header : List String) (rows : List (List Cell)) (c : String) : Bool :=
  rows.any (fun r => (cellNum (getCell header r c)).isNone)

/-- A row's probabilities, in canonical Category Set order. -/
def rowVals (header : List String) (r : List Cell) : List ℚ :=
  CATEGORIES.map (fun c => (cellNum (getCell header r c)).getD 0)

/-- Whether a row has a probability outside `[0.0, 1.0]`. -/
def rowOutOfRange (header : List String) (r : List Cell) : Bool :=
  (rowVals header r).any (fun q => decide (q < 0) || decide (1 < q))

/-- Modelled from the spec: `task3.parseCsv` (spec §4.1; `task3.py` is
absent from the sources). Validation order: missing index column →
missing columns → extra columns → missing values → non-floating-point
values → out-of-range values, fail-fast, each error listing the offending
names sorted and deduplicated; the output pairs each image identifier
with its probabilities in canonical `CATEGORIES` order. -/
def parseCsv (csv : RawCsv) : Res (List (String × List ℚ)) :=
  if !hasCol csv.header "image" then
    .error (.score "Missing column in CSV: \"image\".")
  else if missingCols csv.header ≠ [] then
    .error (.score ("Missing columns in CSV: " ++
      pyStrList (sortedDedup (missingCols csv.header)) ++ "."))
  else if extraCols csv.header ≠ [] then
    .error (.score ("Extra columns in CSV: " ++
      pyStrList (sortedDedup (extraCols csv.header)) ++ "."))
  else if csv.rows.filter (rowBlank csv.header) ≠ [] then
    .error (.score ("Missing value(s) in CSV for images: " ++
      pyStrList (sortedDedup ((csv.rows.filter (rowBlank csv.header)).map
        (rowId csv.header))) ++ "."))
  else if CATEGORIES.filter (colBad csv.header csv.rows) ≠ [] then
    .error (.score ("CSV contains non-floating-point value(s) in columns: " ++
      pyStrList (sortedDedup (CATEGORIES.filter
        (colBad csv.header csv.rows))) ++ "."))
  else if csv.rows.filter (rowOutOfRange csv.header) ≠ [] then
    .error (.score ("Values in CSV are outside the interval [0.0, 1.0] " ++
      "for images: " ++
      pyStrList (sortedDedup ((csv.rows.filter (rowOutOfRange csv.header)).map
        (rowId csv.header))) ++ "."))
  else
    .ok (csv.rows.map (fun r => (rowId csv.header r, rowVals csv.header r)))

/-- Read `l` at the positions listed in `p` (out-of-range positions give
`d`). For `p` a permutation of `range l.length` this reorders `l`. -/
def reorder {α : Type} (p : List ℕ) (d : α) (l : List α) : List α :=
  p.map (fun i => l.getD i d)

/-- Permute the columns of a raw CSV: one index permutation applied to the
header and to every row alike. -/
def colPermute (p : List ℕ) (csv : RawCsv) : RawCsv :=
  ⟨reorder p "" csv.header, csv.rows.map (reorder p Cell.blank)⟩

/- ### Column-order invariance of `parseCsv` -/

theorem map_getD_range {α : Type} (l : List α) (d : α) :
    (List.range l.length).map (fun i => l.getD i d) = l := by
  induction l with
  | nil => rfl
  | cons a as ih =>
    rw [List.length_cons, List.range_succ_eq_map, List.map_cons, List.map_map]
    have h : ((fun i => (a :: as).getD i d) ∘ Nat.succ) =
        fun i => as.getD i d := by
      funext i; rfl
    rw [h, ih]
    rfl

theorem reorder_perm {α : Type} (p : List ℕ) (d : α) (l : List α)
    (hp : p.Perm (List.range l.length)) : (reorder p d l).Perm l := by
  have h1 : (p.map (fun i => l.getD i d)).Perm
      ((List.range l.length).map (fun i => l.getD i d)) := hp.map _
  rw [map_getD_range] at h1
  exact h1

theorem zip_getD {α β : Type} (l1 : List α) (l2 : List β) (i : ℕ)
    (a : α) (b : β) (hlen : l1.length = l2.length) :
    (l1.zip l2).getD i (a, b) = (l1.getD i a, l2.getD i b) := by
  induction l1 generalizing l2 i with
  | nil =>
    cases l2 with
    | nil => rfl
    | cons y ys => simp at hlen
  | cons x xs ih =>
    cases l2 with
    | nil => simp at hlen
    | cons y ys =>
      cases i with
      | zero => rfl
      | succ j =>
        rw [List.zip_cons_cons]
        simpa using ih ys j (by simpa using hlen)

theorem reorder_zip {α β : Type} (p : List ℕ) (a : α) (b : β)
    (l1 : List α) (l2 : List β) (hlen : l1.length = l2.length) :
    (reorder p a l1).zip (reorder p b l2) = reorder p (a, b) (l1.zip l2) := by
  unfold reorder
  rw [List.zip_map']
  exact List.map_congr_left (fun i _ => (zip_getD l1 l2 i a b hlen).symm)

theorem find?_eq_head?_filter {α : Type} (l : List α) (p : α → Bool) :
    l.find? p = (l.filter p).head? := by
  induction l with
  | nil => rfl
  | cons x xs ih =>
    rw [List.filter_cons]
    by_cases h : p x
    · rw [List.find?_cons_of_pos _ h, if_pos h]
      rfl
    · have h' : p x = false := by
        revert h; cases p x
        · intro _; rfl
        · intro h; exact absurd rfl h
      rw [List.find?_cons_of_neg _ (by simp [h']), if_neg (by simp [h'])]
      exact ih

theorem filter_eq_filter_of_perm {α : Type} {l1 l2 : List α} (p : α → Bool)
    (hperm : l1.Perm l2) (hle : (l1.filter p).length ≤ 1) :
    l1.filter p = l2.filter p := by
  have hp2 : (l1.filter p).Perm (l2.filter p) := hperm.filter p
  rcases h1 : l1.filter p with _ | ⟨a, as⟩
  · rw [h1] at hp2
    exact (hp2.symm.eq_nil).symm
  · rw [h1] at hp2 hle
    have has : as = [] := by
      simp only [List.length_cons] at hle
      exact List.length_eq_zero.mp (by omega)
    subst has
    exact (List.perm_singleton.mp hp2.symm).symm

theorem key_not_mem_filter_zip {β : Type} {h : List String} {name : String}
    (hn : name ∉ h) (r : List β) :
    (h.zip r).filter (fun x => decide (x.1 = name)) = [] := by
  induction h generalizing r with
  | nil => rfl
  | cons a as ih =>
    cases r with
    | nil => rfl
    | cons c cs =>
      rw [List.zip_cons_cons, List.filter_cons]
      have ha : a ≠ name := fun hc => hn (hc ▸ List.mem_cons_self a as)
      rw [if_neg (by simpa using ha)]
      exact ih (fun hm => hn (List.mem_cons_of_mem a hm)) cs

theorem filter_zip_key_length_le {β : Type} :
    ∀ (h : List String) (r : List β) (name : String), h.Nodup →
      ((h.zip r).filter (fun x => decide (x.1 = name))).length ≤ 1
  | [], _, _, _ => by simp
  | _ :: _, [], _, _ => by simp
  | a :: as, c :: cs, name, hnd => by
    rw [List.zip_cons_cons, List.filter_cons]
    by_cases ha : a = name
    · rw [if_pos (by simpa using ha)]
      subst ha
      have hnotmem : a ∉ as := (List.nodup_cons.mp hnd).1
      rw [key_not_mem_filter_zip hnotmem cs]
      simp
    · rw [if_neg (by simpa using ha)]
      exact filter_zip_key_length_le as cs name (List.nodup_cons.mp hnd).2

theorem getCell_reorder (p : List ℕ) (h : List String) (r : List Cell)
    (name : String) (hp : p.Perm (List.range h.length))
    (hnd : h.Nodup) (hlen : r.length = h.length) :
    getCell (reorder p "" h) (reorder p Cell.blank r) name =
      getCell h r name := by
  unfold getCell
  rw [reorder_zip p "" Cell.blank h r hlen.symm]
  rw [find?_eq_head?_filter, find?_eq_head?_filter]
  have hzl : (List.range (h.zip r).length) = List.range h.length := by
    rw [List.length_zip, hlen, min_self]
  have hperm : (reorder p ("", Cell.blank) (h.zip r)).Perm (h.zip r) :=
    reorder_perm p _ _ (by rw [hzl]; exact hp)
  have hle : ((reorder p ("", Cell.blank) (h.zip r)).filter
      (fun x => decide (x.1 = name))).length ≤ 1 := by
    rw [List.Perm.length_eq (hperm.filter _)]
    exact filter_zip_key_length_le h r name hnd
  rw [filter_eq_filter_of_perm _ hperm hle]

theorem any_congr {α : Type} {l : List α} {f g : α → Bool}
    (h : ∀ x ∈ l, f x = g x) : l.any f = l.any g := by
  induction l with
  | nil => rfl
  | cons x xs ih =>
    rw [List.any_cons, List.any_cons, h x (List.mem_cons_self x xs),
      ih (fun y hy => h y (List.mem_cons_of_mem x hy))]

theorem sortedDedup_congr {l1 l2 : List String} (h : l1.Perm l2) :
    sortedDedup l1 = sortedDedup l2 := by
  unfold sortedDedup
  haveI : IsAntisymm String (· ≤ ·) := ⟨fun a b h1 h2 => le_antisymm h1 h2⟩
  apply List.eq_of_perm_of_sorted (r := (· ≤ ·))
  · exact (List.perm_insertionSort _ _).trans
      (h.dedup.trans (List.perm_insertionSort _ _).symm)
  · exact List.sorted_insertionSort _ _
  · exact List.sorted_insertionSort _ _

theorem perm_eq_nil_iff {α : Type} {l1 l2 : List α} (h : l1.Perm l2) :
    l1 = [] ↔ l2 = [] := by
  constructor
  · rintro rfl
    exact h.symm.eq_nil
  · rintro rfl
    exact h.eq_nil

/-- The full column-order invariance of the parsing pipeline: permuting
header and rows by the same index permutation leaves the result of
`parseCsv` — success value or error message alike — unchanged. -/
theorem parseCsv_colPermute (p : List ℕ) (csv : RawCsv)
    (hp : p.Perm (List.range csv.header.length))
    (hnd : csv.header.Nodup)
    (hrows : ∀ r ∈ csv.rows, r.length = csv.header.length) :
    parseCsv (colPermute p csv) = parseCsv csv := by
  obtain ⟨H, rows⟩ := csv
  dsimp only at hp hnd hrows
  have hHperm : (reorder p "" H).Perm H := reorder_perm p "" H hp
  have hhas : ∀ name, hasCol (reorder p "" H) name = hasCol H name := by
    intro name
    unfold hasCol
    exact decide_eq_decide.mpr hHperm.mem_iff
  have hcell : ∀ r ∈ rows, ∀ name,
      getCell (reorder p "" H) (reorder p Cell.blank r) name =
        getCell H r name :=
    fun r hr name => getCell_reorder p H r name hp hnd (hrows r hr)
  have hmiss : missingCols (reorder p "" H) = missingCols H := by
    unfold missingCols
    exact List.filter_congr (fun c _ => by rw [hhas c])
  have hextraP : (extraCols (reorder p "" H)).Perm (extraCols H) :=
    hHperm.filter _
  have hextraNil : (extraCols (reorder p "" H) = []) = (extraCols H = []) :=
    propext (perm_eq_nil_iff hextraP)
  have hextraSD : sortedDedup (extraCols (reorder p "" H)) =
      sortedDedup (extraCols H) := sortedDedup_congr hextraP
  have hblankRow : ∀ r ∈ rows,
      rowBlank (reorder p "" H) (reorder p Cell.blank r) = rowBlank H r := by
    intro r hr
    unfold rowBlank
    exact any_congr (fun c _ => by rw [hcell r hr c])
  have hid : ∀ r ∈ rows,
      rowId (reorder p "" H) (reorder p Cell.blank r) = rowId H r := by
    intro r hr
    unfold rowId
    rw [hcell r hr "image"]
  have hvals : ∀ r ∈ rows,
      rowVals (reorder p "" H) (reorder p Cell.blank r) = rowVals H r := by
    intro r hr
    unfold rowVals
    exact List.map_congr_left (fun c _ => by rw [hcell r hr c])
  have hoorRow : ∀ r ∈ rows,
      rowOutOfRange (reorder p "" H) (reorder p Cell.blank r) =
        rowOutOfRange H r := by
    intro r hr
    unfold rowOutOfRange
    rw [hvals r hr]
  have hfilterBlank : (rows.map (reorder p Cell.blank)).filter
      (rowBlank (reorder p "" H)) =
      (rows.filter (rowBlank H)).map (reorder p Cell.blank) := by
    rw [List.filter_map]
    congr 1
    exact List.filter_congr (fun r hr => hblankRow r hr)
  have hfilterOor : (rows.map (reorder p Cell.blank)).filter
      (rowOutOfRange (reorder p "" H)) =
      (rows.filter (rowOutOfRange H)).map (reorder p Cell.blank) := by
    rw [List.filter_map]
    congr 1
    exact List.filter_congr (fun r hr => hoorRow r hr)
  have hidsBlank : ((rows.filter (rowBlank H)).map (reorder p Cell.blank)).map
      (rowId (reorder p "" H)) = (rows.filter (rowBlank H)).map (rowId H) := by
    rw [List.map_map]
    exact List.map_congr_left (fun r hr => by
      simp only [Function.comp]
      exact hid r (List.mem_of_mem_filter hr))
  have hidsOor : ((rows.filter (rowOutOfRange H)).map
      (reorder p Cell.blank)).map (rowId (reorder p "" H)) =
      (rows.filter (rowOutOfRange H)).map (rowId H) := by
    rw [List.map_map]
    exact List.map_congr_left (fun r hr => by
      simp only [Function.comp]
      exact hid r (List.mem_of_mem_filter hr))
  have hbadFilter : CATEGORIES.filter
      (colBad (reorder p "" H) (rows.map (reorder p Cell.blank))) =
      CATEGORIES.filter (colBad H rows) := by
    apply List.filter_congr
    intro c _
    unfold colBad
    rw [List.any_map]
    exact any_congr (fun r hr => by
      simp only [Function.comp]
      rw [hcell r hr c])
  have hout : (rows.map (reorder p Cell.blank)).map
      (fun r => (rowId (reorder p "" H) r, rowVals (reorder p "" H) r)) =
      rows.map (fun r => (rowId H r, rowVals H r)) := by
    rw [List.map_map]
    exact List.map_congr_left (fun r hr => by
      simp only [Function.comp]
      rw [hid r hr, hvals r hr])
  unfold parseCsv colPermute
  dsimp only
  simp only [ne_eq, hhas, hmiss, hextraNil, hextraSD, hfilterBlank, hidsBlank,
    hfilterOor, hidsOor, hbadFilter, hout, List.map_eq_nil_iff]

/-- C8: parsing is column-order invariant — permuting the input's columns
(identifier column included) before parsing yields the identical parsed
table, whose output columns follow the canonical Category Set order
(`rowVals` is a map over `CATEGORIES`). -/
theorem parseCsv_column_order_invariance (p : List ℕ) (csv : RawCsv)
    (t : List (String × List ℚ))
    (hp : p.Perm (List.range csv.header.length))
    (hnd : csv.header.Nodup)
    (hrows : ∀ r ∈ csv.rows, r.length = csv.header.length)
    (hok : parseCsv csv = .ok t) :
    parseCsv (colPermute p csv) = .ok t := by
  rw [parseCsv_colPermute p csv hp hnd hrows, hok]

/-- The one-row submission of the repository's reordered-columns test. -/
def csvExample : RawCsv :=
  ⟨["image", "MEL", "NV", "BCC", "AKIEC", "BKL", "DF", "VASC"],
    [[.str "ISIC_0000123", .num 1, .num 0, .num 0, .num 0, .num 0,
      .num 0, .num 0]]⟩

/-- Witness for C8: the permutation that produces the column order of
`test_parseCsv_reorderedColumns` applied to `csvExample`. -/
theorem parseCsv_column_order_invariance_witness :
    ([2, 3, 5, 6, 4, 1, 7, 0] : List ℕ).Perm
      (List.range csvExample.header.length) ∧
    csvExample.header.Nodup ∧
    (∀ r ∈ csvExample.rows, r.length = csvExample.header.length) ∧
    parseCsv csvExample = .ok [("ISIC_0000123", [1, 0, 0, 0, 0, 0, 0])] ∧
    parseCsv (colPermute [2, 3, 5, 6, 4, 1, 7, 0] csvExample) =
      .ok [("ISIC_0000123", [1, 0, 0, 0, 0, 0, 0])] :=
  ⟨by decide, by decide, by decide, by rfl,
    parseCsv_column_order_invariance [2, 3, 5, 6, 4, 1, 7, 0] csvExample
      [("ISIC_0000123", [1, 0, 0, 0, 0, 0, 0])]
      (by decide) (by decide) (by decide) (by rfl)⟩

/- ### The failure boundary (`ScoreException`) -/

/-- The outcome of `PIL.Image.open` (external library code): either a
decoding failure carrying its message, or an image with a mode string and
its pixel values. -/
structure RawImageFile where
  decodeError : Option String
  mode : String
  pixels : List ℕ

/-- `loadSegmentationImage` from `scoreCommon.py`: a decode failure
raises `ScoreException`; a 1-bit image (mode `'1'`) is first converted to
greyscale (`'L'`); any other non-greyscale mode raises `ScoreException`. -/
def loadSegmentationImage (f : RawImageFile) (imageName : String) :
    Res (List ℕ) :=
  match f.decodeError with
  | some e => .error (.score ("Could not decode image \"" ++ imageName ++
      "\" because: \"" ++ e ++ "\""))
  | none =>
    let mode := if f.mode = "1" then "L" else f.mode
    if mode ≠ "L" then
      .error (.score ("Image " ++ imageName ++
        " is not single-channel (greyscale)."))
    else .ok f.pixels

/-- C7: every failure of the core operations — image loading,
binarization, tabular validation — is a `ScoreException` (`Err.score`),
so one handler catches them all. -/
theorem failures_are_ScoreException (f : RawImageFile) (imageName : String)
    (pick : List ℕ → ℕ) (image : List ℕ) (csv : RawCsv) :
    (∀ e, loadSegmentationImage f imageName = .error e →
      e.isScoreException = true) ∧
    (∀ e, assertBinaryImage pick image imageName = .error e →
      e.isScoreException = true) ∧
    (∀ e, parseCsv csv = .error e → e.isScoreException = true) := by
  refine ⟨?_, ?_, ?_⟩
  · intro e he
    unfold loadSegmentationImage at he
    rcases hd : f.decodeError with _ | msg
    · rw [hd] at he
      dsimp only at he
      by_cases hm : (if f.mode = "1" then "L" else f.mode) ≠ "L"
      · rw [if_pos hm] at he
        cases he
        rfl
      · rw [if_neg hm] at he
        cases he
    · rw [hd] at he
      cases he
      rfl
  · intro e he
    unfold assertBinaryImage at he
    dsimp only at he
    split at he
    · cases he
    · split at he
      · split at he
        · cases he
          rfl
        · cases he
      · cases he
        rfl
  · intro e he
    unfold parseCsv at he
    split at he
    · cases he
      rfl
    · split at he
      · cases he
        rfl
      · split at he
        · cases he
          rfl
        · split at he
          · cases he
            rfl
          · split at he
            · cases he
              rfl
            · split at he
              · cases he
                rfl
              · cases he

/-- Witness for C7 at a non-greyscale image file, a three-valued image and
a header missing the identifier column. -/
theorem failures_are_ScoreException_witness :
    (Err.score ("Image mask is not single-channel (greyscale).")).isScoreException
      = true ∧
    (Err.score (binaryErrMsg "mask")).isScoreException = true ∧
    (Err.score "Missing column in CSV: \"image\".").isScoreException = true :=
  ⟨(failures_are_ScoreException ⟨none, "RGB", []⟩ "mask" (fun l => l.headD 0)
      [0, 100, 200] ⟨[], []⟩).1 _ (by rfl),
    (failures_are_ScoreException ⟨none, "RGB", []⟩ "mask" (fun l => l.headD 0)
      [0, 100, 200] ⟨[], []⟩).2.1 _ (by rfl),
    (failures_are_ScoreException ⟨none, "RGB", []⟩ "mask" (fun l => l.headD 0)
      [0, 100, 200] ⟨[], []⟩).2.2 _ (by rfl)⟩

end ISIC
